import Mathlib

/-!
# Verification of the `oxy-python` lexer (`src/parser/lexer.rs`)

Shallow embedding of the lexical scanner: the data model (`Location`,
`Token`, `TokenType`, `LexError`), the identifier-run helper `take_until`,
the keyword table `check_keyword`, and the scanner `lex`.

The Rust iterator state (a lookahead cell `maybe_c : Option<char>` plus the
live `Chars` iterator) is modelled as an `Option Char` together with a
`List Char`; `chars.next()` becomes taking `head?` and `tail` of the list.
The `u64` line/column counters are modelled as `Nat` (no input realisable in
memory can overflow a `u64` column counter, since the counter is bounded by
the input's byte length).

Rust's `char::is_alphabetic` (Unicode `Alphabetic` property) is modelled on
its ASCII fragment `Char.isAlpha`; every input appearing in a theorem below
is ASCII, where the two predicates agree.
-/

namespace OxyPython

/-- A location in the file.  Mirrors `struct Location { line: u64, column: u64 }`. -/
structure Location where
  /-- The number of the line, starting with 1. -/
  line : Nat
  /-- The number of the column, starting with 1. -/
  column : Nat
  deriving DecidableEq, Repr

/-- `Location::new(line, column)` — the declared parameter order is `(line, column)`. -/
def Location.new (line : Nat) (column : Nat) : Location :=
  { line := line, column := column }

/-- A type of token with the data inside.  Mirrors `enum TokenType`. -/
inductive TokenType where
  | Plus
  | Minus
  | Star
  | StarStar
  | Slash
  | Name (s : String)
  | If
  | Else
  | Indent
  | Dedent
  deriving DecidableEq, Repr

/-- Holds a lexed token and data with its position in the file.  Mirrors `struct Token`. -/
structure Token where
  /-- The start location of the token. -/
  start : Location
  /-- The end location of the token (Rust field `end`). -/
  stop : Location
  /-- The value of the token (Rust field `token_type`). -/
  token_type : TokenType
  deriving DecidableEq, Repr

/-- An error thrown when lexing fails.  Mirrors `enum LexError`. -/
inductive LexError where
  | UnexpectedToken (c : Char) (start : Location) (stop : Location)
  deriving DecidableEq, Repr

/-- Alias for what the lexer will return, `Result<Vec<Token>, LexError>`. -/
abbrev LexResult := Except LexError (List Token)

/-- Rust `char::is_alphabetic`, modelled on its ASCII fragment. -/
def is_alphabetic (c : Char) : Bool :=
  c.isAlpha

/-- The loop body of `take_until`: `maybe_c` is the helper's by-value lookahead
cell, `chars` the shared iterator, `data` the accumulating string.  While the
predicate holds the character is pushed and the next one is pulled from the
iterator; the first failing character stays in the helper's local cell and is
discarded when the helper returns. -/
def take_until_loop (maybe_c : Option Char) (chars : List Char) (p : Char → Bool)
    (data : String) : String × List Char :=
  match maybe_c with
  | none => (data, chars)
  | some c =>
    if p c then
      take_until_loop chars.head? chars.tail p (data.push c)
    else
      (data, chars)
termination_by chars.length + (match maybe_c with | some _ => 1 | none => 0)
decreasing_by
  cases chars <;> simp_all

/-- `take_until(maybe_c, &mut chars, predicate)`: returns the collected string
together with the state of the iterator `chars` after the call (the Rust
function mutates `chars` in place). -/
def take_until (maybe_c : Option Char) (chars : List Char) (p : Char → Bool) :
    String × List Char :=
  take_until_loop maybe_c chars p ""

/-- `check_keyword`: exact match of the collected identifier text against the
keyword table. -/
def check_keyword (s : String) : TokenType :=
  if s = "if" then TokenType.If
  else if s = "else" then TokenType.Else
  else TokenType.Name s

/-- The `push_tok!($tok, $span)` macro: `start = Location::new(column, line)`,
then `column += span`, then `end = Location::new(column - 1, line)` — note the
call sites pass `(column, line)` to a constructor declared `(line, column)`. -/
def push_tok (tok : TokenType) (span : Nat) (column : Nat) (line : Nat) : Token :=
  { start := Location.new column line
    stop := Location.new (column + span - 1) line
    token_type := tok }

theorem take_until_loop_length_le (maybe_c : Option Char) (chars : List Char)
    (p : Char → Bool) (data : String) :
    (take_until_loop maybe_c chars p data).2.length ≤ chars.length := by
  induction maybe_c, chars, p, data using take_until_loop.induct with
  | case1 chars p data => simp [take_until_loop]
  | case2 chars p data c hp ih =>
    rw [take_until_loop]
    simp only [hp, if_pos]
    calc (take_until_loop chars.head? chars.tail p (data.push c)).2.length
        ≤ chars.tail.length := ih
      _ ≤ chars.length := by cases chars <;> simp
  | case3 chars p data c hp =>
    rw [take_until_loop]
    simp [hp]

/-- The scanner loop of `lex`: `maybe_c` is the lookahead cell, `chars` the
rest of the character iterator, `column`/`line` the position counters and
`result` the accumulated token vector.  Each successful arm ends with the
`advance!()` at the bottom of the loop body (the `*` arms `continue` instead,
having advanced themselves). -/
def lexLoop (maybe_c : Option Char) (chars : List Char) (column : Nat) (line : Nat)
    (result : List Token) : LexResult :=
  match maybe_c with
  | none => Except.ok result
  | some c =>
    if c = '+' then
      lexLoop chars.head? chars.tail (column + 1) line
        (result ++ [push_tok TokenType.Plus 1 column line])
    else if c = '-' then
      lexLoop chars.head? chars.tail (column + 1) line
        (result ++ [push_tok TokenType.Minus 1 column line])
    else if c = '*' then
      match chars with
      | n :: rest =>
        if n = '*' then
          lexLoop rest.head? rest.tail (column + 2) line
            (result ++ [push_tok TokenType.StarStar 2 column line])
        else
          lexLoop (some n) rest (column + 1) line
            (result ++ [push_tok TokenType.Star 1 column line])
      | [] =>
        lexLoop none [] (column + 1) line
          (result ++ [push_tok TokenType.Star 1 column line])
    else if is_alphabetic c then
      match h : take_until (some c) chars (fun x => is_alphabetic x) with
      | (s, chars2) =>
        lexLoop chars2.head? chars2.tail (column + s.utf8ByteSize) line
          (result ++ [push_tok (check_keyword s) s.utf8ByteSize column line])
    else if c = ' ' then
      lexLoop chars.head? chars.tail column line result
    else if c = '/' then
      lexLoop chars.head? chars.tail (column + 1) line
        (result ++ [push_tok TokenType.Slash 1 column line])
    else
      Except.error (LexError.UnexpectedToken c
        (Location.new column line) (Location.new column line))
termination_by chars.length + (match maybe_c with | some _ => 1 | none => 0)
decreasing_by
  all_goals simp_wf
  all_goals
    try (cases chars <;> simp <;> omega)
  all_goals
    try (cases rest <;> simp <;> omega)
  all_goals
    (have hlen : chars2.length ≤ chars.length := by
      have h2 := take_until_loop_length_le (some c) chars (fun x => is_alphabetic x) ""
      rw [take_until] at h
      rw [h] at h2
      exact h2
     cases h2 : chars2 <;> simp_all <;> omega)

/-- `lex(string)`: run the scanner loop on the characters of the input with
both counters initialised to 1 and an empty token vector. -/
def lex (string : String) : LexResult :=
  lexLoop string.data.head? string.data.tail 1 1 []

/-- The set of characters the dispatch arm of `lex` recognizes: the four
operator characters, alphabetic characters and the space. -/
def recognized (c : Char) : Bool :=
  c = '+' || c = '-' || c = '*' || is_alphabetic c || c = ' ' || c = '/'

/-- The number of columns `push_tok!` advances for a token of the given kind:
the `$span` argument at each call site of the macro.  For identifier tokens
this is the UTF-8 byte length of the collected run (`s.len()` in Rust). -/
def tokSpan : TokenType → Nat
  | TokenType.StarStar => 2
  | TokenType.If => 2
  | TokenType.Else => 4
  | TokenType.Name s => s.utf8ByteSize
  | _ => 1

/-- The position invariant actually maintained by the scanner: starting from
column counter `column`, each token in the list is exactly
`push_tok kind (tokSpan kind) col line` for the running value `col` of the
counter, each span is at least 1, and the counter advances by exactly the
token's span from one token to the next (nothing else ever advances it). -/
def TokChain (column line : Nat) : List Token → Prop
  | [] => True
  | t :: ts =>
      1 ≤ tokSpan t.token_type ∧
      t = push_tok t.token_type (tokSpan t.token_type) column line ∧
      TokChain (column + tokSpan t.token_type) line ts

/- ### Characterisation of `take_until` -/

theorem take_until_loop_run_stop (run : List Char) (c : Char) (rest : List Char)
    (p : Char → Bool) (data : String)
    (hrun : ∀ x ∈ run, p x = true) (hc : p c = false) :
    take_until_loop (run ++ c :: rest).head? (run ++ c :: rest).tail p data
      = (⟨data.data ++ run⟩, rest) := by
  induction run generalizing data with
  | nil =>
    simp only [List.nil_append, List.head?_cons, List.tail_cons]
    rw [take_until_loop]
    simp [hc]
  | cons a as ih =>
    simp only [List.cons_append, List.head?_cons, List.tail_cons]
    rw [take_until_loop]
    have ha : p a = true := hrun a (by simp)
    simp only [ha, if_pos]
    rw [ih (data.push a) (fun x hx => hrun x (by simp [hx]))]
    simp [String.push]

theorem take_until_loop_run_all (run : List Char) (p : Char → Bool) (data : String)
    (hrun : ∀ x ∈ run, p x = true) :
    take_until_loop run.head? run.tail p data = (⟨data.data ++ run⟩, []) := by
  induction run generalizing data with
  | nil =>
    simp only [List.head?_nil, List.tail_nil]
    rw [take_until_loop]
    simp
  | cons a as ih =>
    simp only [List.head?_cons, List.tail_cons]
    rw [take_until_loop]
    have ha : p a = true := hrun a (by simp)
    simp only [ha, if_pos]
    rw [ih (data.push a) (fun x hx => hrun x (by simp [hx]))]
    simp [String.push]

/-- `take_until` on a run of matching characters followed by a failing
character `c`: the run is collected into the string and the iterator is left
pointing *after* `c` — the failing character has been pulled from the iterator
and discarded. -/
theorem take_until_run_stop (a : Char) (as : List Char) (c : Char) (rest : List Char)
    (p : Char → Bool) (ha : p a = true) (has : ∀ x ∈ as, p x = true) (hc : p c = false) :
    take_until (some a) (as ++ c :: rest) p = (⟨a :: as⟩, rest) := by
  have h := take_until_loop_run_stop (a :: as) c rest p ""
    (by intro x hx; rcases List.mem_cons.mp hx with h | h
        · exact h ▸ ha
        · exact has x h) hc
  simpa [take_until] using h

/-- `take_until` on a run of matching characters that reaches the end of the
input: the whole run is collected and the iterator is exhausted. -/
theorem take_until_run_all (a : Char) (as : List Char) (p : Char → Bool)
    (ha : p a = true) (has : ∀ x ∈ as, p x = true) :
    take_until (some a) as p = (⟨a :: as⟩, []) := by
  have h := take_until_loop_run_all (a :: as) p ""
    (by intro x hx; rcases List.mem_cons.mp hx with h | h
        · exact h ▸ ha
        · exact has x h)
  simpa [take_until] using h

theorem take_until_loop_utf8ByteSize_le (maybe_c : Option Char) (chars : List Char)
    (p : Char → Bool) (data : String) :
    data.utf8ByteSize ≤ (take_until_loop maybe_c chars p data).1.utf8ByteSize := by
  induction maybe_c, chars, p, data using take_until_loop.induct with
  | case1 chars p data => simp [take_until_loop]
  | case2 chars p data c hp ih =>
    rw [take_until_loop]
    simp only [hp, if_pos]
    calc data.utf8ByteSize ≤ (data.push c).utf8ByteSize := by
          simp [String.push, String.utf8ByteSize]
      _ ≤ _ := ih
  | case3 chars p data c hp =>
    rw [take_until_loop]
    simp [hp]

/-- The string collected by `take_until` from a character satisfying the
predicate is nonempty (it has at least one byte). -/
theorem take_until_fst_utf8ByteSize_pos (c : Char) (chars : List Char)
    (p : Char → Bool) (hc : p c = true) :
    1 ≤ (take_until (some c) chars p).1.utf8ByteSize := by
  rw [take_until, take_until_loop]
  simp only [hc, if_pos]
  calc 1 ≤ ("".push c).utf8ByteSize := by
        simp [String.push, String.utf8ByteSize]
        exact Char.utf8Size_pos c
    _ ≤ _ := take_until_loop_utf8ByteSize_le chars.head? chars.tail p ("".push c)

/- ### Character classification helpers -/

/-- An alphabetic character is none of the operator, space or slash
characters that the earlier dispatch arms match. -/
theorem is_alphabetic_ne (c : Char) (h : is_alphabetic c = true) :
    c ≠ '+' ∧ c ≠ '-' ∧ c ≠ '*' ∧ c ≠ ' ' ∧ c ≠ '/' := by
  refine ⟨?_, ?_, ?_, ?_, ?_⟩ <;> rintro rfl <;> exact absurd h (by decide)

theorem tokSpan_check_keyword (s : String) : tokSpan (check_keyword s) = s.utf8ByteSize := by
  rw [check_keyword]
  split
  · rename_i hs; rw [hs]; rfl
  · split
    · rename_i hs; rw [hs]; rfl
    · rfl

/- ### The scanner's position invariant -/

/-- Every successful run of the scanner loop extends the accumulated vector
with a chain of tokens whose recorded positions advance by exactly the span
of each token, starting at the current column counter. -/
theorem lexLoop_ok_chain :
    ∀ (maybe_c : Option Char) (chars : List Char) (column line : Nat)
      (result : List Token) (ts : List Token),
      lexLoop maybe_c chars column line result = Except.ok ts →
      ∃ ts2, ts = result ++ ts2 ∧ TokChain column line ts2 := by
  intro maybe_c chars column line result
  induction maybe_c, chars, column, line, result using lexLoop.induct with
  | case1 chars column line result =>
    intro ts h
    rw [lexLoop] at h
    exact ⟨[], by simpa using (Except.ok.inj h).symm, trivial⟩
  | case2 chars column line result ih =>
    intro ts h
    rw [lexLoop.eq_def] at h
    simp only [] at h
    simp at h
    obtain ⟨ts2, hts, hchain⟩ := ih ts h
    exact ⟨push_tok TokenType.Plus 1 column line :: ts2,
      by rw [hts]; simp, ⟨by simp [push_tok, tokSpan], rfl, hchain⟩⟩
  | case3 chars column line result h1 ih =>
    intro ts h
    rw [lexLoop.eq_def] at h
    simp [h1, reduceCtorEq] at h
    obtain ⟨ts2, hts, hchain⟩ := ih ts h
    exact ⟨push_tok TokenType.Minus 1 column line :: ts2,
      by rw [hts]; simp, ⟨by simp [push_tok, tokSpan], rfl, hchain⟩⟩
  | case4 column line result rest h1 h2 ih =>
    intro ts h
    rw [lexLoop.eq_def] at h
    simp [h1, h2, reduceCtorEq] at h
    obtain ⟨ts2, hts, hchain⟩ := ih ts h
    exact ⟨push_tok TokenType.StarStar 2 column line :: ts2,
      by rw [hts]; simp, ⟨by simp [push_tok, tokSpan], rfl, hchain⟩⟩
  | case5 column line result n rest hn h1 h2 ih =>
    intro ts h
    rw [lexLoop.eq_def] at h
    simp [h1, h2, hn, reduceCtorEq] at h
    obtain ⟨ts2, hts, hchain⟩ := ih ts h
    exact ⟨push_tok TokenType.Star 1 column line :: ts2,
      by rw [hts]; simp, ⟨by simp [push_tok, tokSpan], rfl, hchain⟩⟩
  | case6 column line result h1 h2 ih =>
    intro ts h
    rw [lexLoop.eq_def] at h
    simp [h1, h2, reduceCtorEq] at h
    obtain ⟨ts2, hts, hchain⟩ := ih ts h
    exact ⟨push_tok TokenType.Star 1 column line :: ts2,
      by rw [hts]; simp, ⟨by simp [push_tok, tokSpan], rfl, hchain⟩⟩
  | case7 chars column line result c h1 h2 h3 halpha s chars2 htu ih =>
    intro ts h
    rw [lexLoop.eq_def] at h
    simp [h1, h2, h3, halpha, htu] at h
    obtain ⟨ts2, hts, hchain⟩ := ih ts h
    refine ⟨push_tok (check_keyword s) s.utf8ByteSize column line :: ts2,
      by rw [hts]; simp, ?_, ?_, ?_⟩
    · show 1 ≤ tokSpan (check_keyword s)
      rw [tokSpan_check_keyword]
      have := take_until_fst_utf8ByteSize_pos c chars (fun x => is_alphabetic x) halpha
      rw [htu] at this
      exact this
    · show push_tok (check_keyword s) s.utf8ByteSize column line
        = push_tok (check_keyword s) (tokSpan (check_keyword s)) column line
      rw [tokSpan_check_keyword]
    · show TokChain (column + tokSpan (check_keyword s)) line ts2
      rw [tokSpan_check_keyword]
      exact hchain
  | case8 chars column line result h1 h2 h3 h4 ih =>
    intro ts h
    rw [lexLoop.eq_def] at h
    simp [h1, h2, h3, h4, reduceCtorEq] at h
    exact ih ts h
  | case9 chars column line result h1 h2 h3 h4 h5 ih =>
    intro ts h
    rw [lexLoop.eq_def] at h
    simp [h1, h2, h3, h4, h5, reduceCtorEq] at h
    obtain ⟨ts2, hts, hchain⟩ := ih ts h
    exact ⟨push_tok TokenType.Slash 1 column line :: ts2,
      by rw [hts]; simp, ⟨by simp [push_tok, tokSpan], rfl, hchain⟩⟩
  | case10 chars column line result c h1 h2 h3 h4 h5 h6 =>
    intro ts h
    rw [lexLoop.eq_def] at h
    simp [h1, h2, h3, h4, h5, h6] at h

/-- Every successful `lex` call returns a token chain starting at the initial
counters `column = 1`, `line = 1`. -/
theorem lex_ok_chain (s : String) (ts : List Token) (h : lex s = Except.ok ts) :
    TokChain 1 1 ts := by
  obtain ⟨ts2, hts, hchain⟩ := lexLoop_ok_chain s.data.head? s.data.tail 1 1 [] ts h
  rw [hts]
  simpa using hchain

/-- In a token chain from counter `column`, every token has both its recorded
`column` fields equal to the line counter, and its recorded `line` fields
bracket a span lying at or after `column`. -/
theorem tokChain_mem (column line : Nat) (ts : List Token) (h : TokChain column line ts) :
    ∀ t ∈ ts, t.start.column = line ∧ t.stop.column = line ∧
      column ≤ t.start.line ∧ t.start.line ≤ t.stop.line := by
  induction ts generalizing column with
  | nil => intro t ht; cases ht
  | cons a as ih =>
    obtain ⟨hspan, ha, hrest⟩ := h
    intro t ht
    rcases List.mem_cons.mp ht with rfl | ht
    · rw [ha]
      simp [push_tok, Location.new]
      omega
    · have h2 := ih (column + tokSpan a.token_type) hrest t ht
      exact ⟨h2.1, h2.2.1, Nat.le_trans (Nat.le_add_right _ _) h2.2.2.1, h2.2.2.2⟩

/-- In a token chain the recorded positions are strictly increasing: every
token ends strictly before the next one starts. -/
theorem tokChain_pairwise (column line : Nat) (ts : List Token) (h : TokChain column line ts) :
    ts.Pairwise (fun a b => a.stop.line < b.start.line) := by
  induction ts generalizing column with
  | nil => exact List.Pairwise.nil
  | cons a as ih =>
    obtain ⟨hspan, ha, hrest⟩ := h
    refine List.Pairwise.cons ?_ (ih _ hrest)
    intro b hb
    have hb2 := tokChain_mem _ _ _ hrest b hb
    have hstop : a.stop.line = column + tokSpan a.token_type - 1 := by
      conv_lhs => rw [ha]
      simp [push_tok, Location.new]
    omega

/- ### Step lemmas for the dispatch loop -/

/-- Dispatch on an alphabetic character whose maximal run is followed by a
non-matching character `c`: the whole run is collected into one token whose
span is the run's byte length, the boundary character `c` is dropped (it is
consumed by `take_until` and then `advance!()` moves past it without it ever
being dispatched on), and scanning resumes at `rest`. -/
theorem lexLoop_alpha_run_stop (a : Char) (as : List Char) (c : Char) (rest : List Char)
    (column line : Nat) (result : List Token)
    (ha : is_alphabetic a = true) (has : ∀ x ∈ as, is_alphabetic x = true)
    (hc : is_alphabetic c = false) :
    lexLoop (some a) (as ++ c :: rest) column line result =
      lexLoop rest.head? rest.tail (column + (⟨a :: as⟩ : String).utf8ByteSize) line
        (result ++ [push_tok (check_keyword ⟨a :: as⟩)
          (⟨a :: as⟩ : String).utf8ByteSize column line]) := by
  obtain ⟨h1, h2, h3, _, _⟩ := is_alphabetic_ne a ha
  have htu := take_until_run_stop a as c rest (fun x => is_alphabetic x) ha has hc
  rw [lexLoop.eq_def]
  simp [h1, h2, h3, ha, htu]

/-- Dispatch on an alphabetic character whose run reaches the end of the
input: the run is collected into one final token and the scan succeeds. -/
theorem lexLoop_alpha_run_all (a : Char) (as : List Char)
    (column line : Nat) (result : List Token)
    (ha : is_alphabetic a = true) (has : ∀ x ∈ as, is_alphabetic x = true) :
    lexLoop (some a) as column line result =
      Except.ok (result ++ [push_tok (check_keyword ⟨a :: as⟩)
        (⟨a :: as⟩ : String).utf8ByteSize column line]) := by
  obtain ⟨h1, h2, h3, _, _⟩ := is_alphabetic_ne a ha
  have htu := take_until_run_all a as (fun x => is_alphabetic x) ha has
  rw [lexLoop.eq_def]
  simp [h1, h2, h3, ha, htu]
  rw [lexLoop]

/-- Dispatch on a character outside the recognized set: the scanner returns
the `UnexpectedToken` error built from the current counters (note the
transposed `Location::new(column, line)` call) and drops every token
accumulated so far — only the error is returned. -/
theorem lexLoop_unrecognized (c : Char) (chars : List Char) (column line : Nat)
    (result : List Token) (hc : recognized c = false) :
    lexLoop (some c) chars column line result =
      Except.error (LexError.UnexpectedToken c
        (Location.new column line) (Location.new column line)) := by
  simp [recognized] at hc
  obtain ⟨⟨⟨⟨⟨h1, h2⟩, h3⟩, h4⟩, h5⟩, h6⟩ := hc
  rw [lexLoop.eq_def]
  simp [h1, h2, h3, h4, h5, h6]

/- ### Claim C1 -/

/-- C1 counterexample: on input `"**"` the single `StarStar` token has
`start.line = 1` but `stop.line = 2` — the claimed invariant
`start.line == end.line` fails, because every `push_tok!` call site passes
`(column, line)` to the `(line, column)` constructor.  -/
theorem lex_starstar_start_line_ne_stop_line :
    lex "**" = Except.ok [push_tok TokenType.StarStar 2 1 1] ∧
    (push_tok TokenType.StarStar 2 1 1).start.line ≠
      (push_tok TokenType.StarStar 2 1 1).stop.line := by
  constructor
  · simp [lex, lexLoop]
  · decide

/-- C1 (amended): for every input on which `lex` succeeds, every returned
token satisfies `start.column == end.column` and `start.line <= end.line`
(the transposed constructor stores the column counter in the `line` field and
the line counter — constantly 1 — in the `column` field), and the recorded
positions are strictly increasing along the output sequence, matching the
tokens' order of appearance in the source text. -/
theorem lex_token_position_invariant (s : String) (ts : List Token)
    (h : lex s = Except.ok ts) :
    (∀ t ∈ ts, t.start.column = t.stop.column ∧ t.start.line ≤ t.stop.line) ∧
    ts.Pairwise (fun a b => a.stop.line < b.start.line) := by
  have hchain := lex_ok_chain s ts h
  constructor
  · intro t ht
    have h2 := tokChain_mem 1 1 ts hchain t ht
    exact ⟨h2.1.trans h2.2.1.symm, h2.2.2.2⟩
  · exact tokChain_pairwise 1 1 ts hchain

/-- C1 witness: the amended invariant instantiated on the concrete input
`"* *"`, whose scan succeeds with two `Star` tokens. -/
theorem lex_token_position_invariant_witness :
    lex "* *" = Except.ok [push_tok TokenType.Star 1 1 1, push_tok TokenType.Star 1 2 1] ∧
    ((∀ t ∈ [push_tok TokenType.Star 1 1 1, push_tok TokenType.Star 1 2 1],
        t.start.column = t.stop.column ∧ t.start.line ≤ t.stop.line) ∧
      List.Pairwise (fun a b => a.stop.line < b.start.line)
        [push_tok TokenType.Star 1 1 1, push_tok TokenType.Star 1 2 1]) :=
  ⟨by simp [lex, lexLoop, is_alphabetic],
    lex_token_position_invariant "* *" _ (by simp [lex, lexLoop, is_alphabetic])⟩

/- ### Claim C2 -/

/-- C2 counterexample: `take_until` started on `'a'` with the remaining
stream `['@']` returns the collected run `"a"` together with the *empty*
remaining stream: the non-matching boundary character `'@'` has been pulled
out of the character stream and discarded, so it is *not* still available to
the caller. -/
theorem take_until_consumes_boundary_counterexample :
    take_until (some 'a') ['@'] is_alphabetic = ("a", []) ∧
    (take_until (some 'a') ['@'] is_alphabetic).2 ≠ ['@'] := by
  have h := take_until_run_stop 'a' [] '@' [] is_alphabetic
    (by decide) (by simp) (by decide)
  simp only [List.nil_append] at h
  exact ⟨h, by rw [h]; simp⟩

/-- C2 (amended): given a starting character and a predicate, `take_until`
greedily appends matching characters into a string and stops at the first
non-matching character, but it *does* consume that boundary character from
the character stream: after it returns, the stream continues with the
characters after the boundary (or is exhausted when the run reached the end
of the input). -/
theorem take_until_run_characterisation :
    (∀ (a : Char) (as : List Char) (c : Char) (rest : List Char) (p : Char → Bool),
      p a = true → (∀ x ∈ as, p x = true) → p c = false →
      take_until (some a) (as ++ c :: rest) p = (⟨a :: as⟩, rest)) ∧
    (∀ (a : Char) (as : List Char) (p : Char → Bool),
      p a = true → (∀ x ∈ as, p x = true) →
      take_until (some a) as p = (⟨a :: as⟩, [])) :=
  ⟨take_until_run_stop, take_until_run_all⟩

/-- C2 witness: the amended characterisation instantiated on the run `"ab"`
followed by the boundary `' '` and on the run `"a"` reaching end of input. -/
theorem take_until_run_characterisation_witness :
    take_until (some 'a') (['b'] ++ ' ' :: ['c']) is_alphabetic = ("ab", ['c']) ∧
    take_until (some 'a') [] is_alphabetic = ("a", []) :=
  ⟨take_until_run_characterisation.1 'a' ['b'] ' ' ['c'] is_alphabetic
      (by decide) (by decide) (by decide),
    take_until_run_characterisation.2 'a' [] is_alphabetic (by decide) (by simp)⟩

/- ### Claim C3 -/

/-- C3 counterexample: the input `"a@"` contains the unrecognized character
`'@'`, yet `lex` neither fails nor reports it: the `'@'` is consumed as the
boundary of the preceding alphabetic run and the call succeeds with the
single token `Name("a")`. -/
theorem lex_boundary_swallows_unrecognized_char :
    recognized '@' = false ∧
    lex "a@" = Except.ok [push_tok (TokenType.Name "a") 1 1 1] := by
  constructor
  · decide
  · simp [lex, lexLoop, take_until, take_until_loop, is_alphabetic]
    decide

/-- C3 (amended): when the dispatch loop actually reaches a character outside
the recognized set (not one of `+ - * /`, not alphabetic, not a space), it
returns `Err(UnexpectedToken(c, location, location))` built from the current
counters and discards all tokens accumulated so far — only the error is
returned.  In particular every input *starting* with an unrecognized
character fails this way.  (An unrecognized character sitting immediately
after an alphabetic run is instead swallowed as the run's boundary and never
dispatched on, so it cannot trigger the error — see `"a@"`.) -/
theorem lex_unrecognized_dispatch_fails :
    (∀ (c : Char) (chars : List Char) (column line : Nat) (result : List Token),
      recognized c = false →
      lexLoop (some c) chars column line result =
        Except.error (LexError.UnexpectedToken c
          (Location.new column line) (Location.new column line))) ∧
    (∀ (c : Char) (rest : List Char),
      recognized c = false →
      lex ⟨c :: rest⟩ =
        Except.error (LexError.UnexpectedToken c
          (Location.new 1 1) (Location.new 1 1))) := by
  refine ⟨lexLoop_unrecognized, ?_⟩
  intro c rest hc
  show lexLoop (c :: rest).head? (c :: rest).tail 1 1 [] = _
  simp only [List.head?_cons, List.tail_cons]
  exact lexLoop_unrecognized c rest 1 1 [] hc

/-- C3 witness: the amended statement instantiated on the input `"+@"` whose
second character is dispatched (after the `+` token was accumulated) and on
the input `"@"`. -/
theorem lex_unrecognized_dispatch_fails_witness :
    recognized '@' = false ∧
    lexLoop (some '@') [] 3 1 [push_tok TokenType.Plus 1 1 1] =
      Except.error (LexError.UnexpectedToken '@' (Location.new 3 1) (Location.new 3 1)) ∧
    lex ⟨'@' :: []⟩ =
      Except.error (LexError.UnexpectedToken '@' (Location.new 1 1) (Location.new 1 1)) :=
  ⟨by decide,
    lex_unrecognized_dispatch_fails.1 '@' [] 3 1 [push_tok TokenType.Plus 1 1 1] (by decide),
    lex_unrecognized_dispatch_fails.2 '@' [] (by decide)⟩

/- ### Claim C4 -/

/-- C4: for every input consisting of a maximal alphabetic run followed by at
least one further character, the character immediately after the run is
discarded without ever being dispatched on and scanning resumes at the
character after it; in particular `lex("if+")` succeeds with only `[If]` (no
`Plus` token) and `lex("a@")` succeeds with `[Name("a")]` rather than
returning an `UnexpectedToken` error for `'@'`. -/
theorem lex_identifier_boundary_skip :
    (∀ (a : Char) (as : List Char) (c : Char) (rest : List Char)
        (column line : Nat) (result : List Token),
      is_alphabetic a = true → (∀ x ∈ as, is_alphabetic x = true) →
      is_alphabetic c = false →
      lexLoop (some a) (as ++ c :: rest) column line result =
        lexLoop rest.head? rest.tail (column + (⟨a :: as⟩ : String).utf8ByteSize) line
          (result ++ [push_tok (check_keyword ⟨a :: as⟩)
            (⟨a :: as⟩ : String).utf8ByteSize column line])) ∧
    lex "if+" = Except.ok [push_tok TokenType.If 2 1 1] ∧
    lex "a@" = Except.ok [push_tok (TokenType.Name "a") 1 1 1] := by
  refine ⟨lexLoop_alpha_run_stop, ?_, ?_⟩
  · simp [lex, lexLoop, take_until, take_until_loop, is_alphabetic]
    decide
  · simp [lex, lexLoop, take_until, take_until_loop, is_alphabetic]
    decide

/-- C4 witness: the general statement instantiated on the run `"if"` followed
by the boundary `'+'` at the initial counters. -/
theorem lex_identifier_boundary_skip_witness :
    is_alphabetic 'i' = true ∧ is_alphabetic '+' = false ∧
    lexLoop (some 'i') (['f'] ++ '+' :: []) 1 1 [] =
      lexLoop ([] : List Char).head? ([] : List Char).tail
        (1 + (⟨'i' :: ['f']⟩ : String).utf8ByteSize) 1
        ([] ++ [push_tok (check_keyword ⟨'i' :: ['f']⟩)
          (⟨'i' :: ['f']⟩ : String).utf8ByteSize 1 1]) :=
  ⟨by decide, by decide,
    lex_identifier_boundary_skip.1 'i' ['f'] '+' [] 1 1 []
      (by decide) (by decide) (by decide)⟩

/- ### Claim C5 -/

/-- C5 counterexample: on input `" +"` the skipped space does not advance the
column counter at all, so the `Plus` token is recorded at position 1 in both
fields even though `'+'` is the second character of the input — contradicting
both "after a space is skipped the column is one greater" and "the start
column of every token equals the 1-based character position of its first
character". -/
theorem lex_space_does_not_advance_column :
    lex " +" = Except.ok [push_tok TokenType.Plus 1 1 1] ∧
    (push_tok TokenType.Plus 1 1 1).start.line ≠ 2 ∧
    (push_tok TokenType.Plus 1 1 1).start.column ≠ 2 := by
  refine ⟨?_, by decide, by decide⟩
  simp [lex, lexLoop, is_alphabetic]

/-- C5 (amended): the column counter advances by exactly the span passed to
`push_tok!` for each emitted token — 1 for the one-character operators, 2 for
`StarStar`, and the byte length (`s.len()`) of the collected run for
identifier/keyword tokens — and by nothing else: skipped spaces and discarded
run-boundary characters do not advance it.  Consequently every successful
scan yields a `TokChain`: each token is exactly `push_tok kind (tokSpan kind)`
at the running counter value, the counter starts at 1 and steps by each
token's span, and the counter value is recorded in the transposed `line`
field of the locations. -/
theorem lex_column_advances_by_token_spans (s : String) (ts : List Token)
    (h : lex s = Except.ok ts) : TokChain 1 1 ts :=
  lex_ok_chain s ts h

/-- C5 witness: on input `"a b"` the two `Name` tokens occupy consecutive
counter positions 1 and 2 (the space never advanced the counter), forming the
chain predicted by the amended claim. -/
theorem lex_column_advances_by_token_spans_witness :
    lex "a b" = Except.ok [push_tok (TokenType.Name "a") 1 1 1,
      push_tok (TokenType.Name "b") 1 2 1] ∧
    TokChain 1 1 [push_tok (TokenType.Name "a") 1 1 1,
      push_tok (TokenType.Name "b") 1 2 1] :=
  ⟨by simp [lex, lexLoop, take_until, take_until_loop, is_alphabetic]; decide,
    lex_column_advances_by_token_spans "a b" _
      (by simp [lex, lexLoop, take_until, take_until_loop, is_alphabetic]; decide)⟩

/- ### Claim C6 -/

/-- C6: the scanner uses exactly one character of lookahead for `'*'`:
`lex("**")` yields exactly one two-character `StarStar` token; a `'*'`
followed by any non-`'*'` character yields a one-character `Star` token and
the following character is scanned normally (it stays the current character
of the resumed loop), e.g. `lex("*-") = [Star, Minus]`; and a `'*'` at end of
input yields a single `Star` token. -/
theorem lex_star_lookahead :
    lex "**" = Except.ok [push_tok TokenType.StarStar 2 1 1] ∧
    (∀ (n : Char) (rest : List Char) (column line : Nat) (result : List Token),
      n ≠ '*' →
      lexLoop (some '*') (n :: rest) column line result =
        lexLoop (some n) rest (column + 1) line
          (result ++ [push_tok TokenType.Star 1 column line])) ∧
    lex "*-" = Except.ok [push_tok TokenType.Star 1 1 1,
      push_tok TokenType.Minus 1 2 1] ∧
    (∀ (column line : Nat) (result : List Token),
      lexLoop (some '*') [] column line result =
        Except.ok (result ++ [push_tok TokenType.Star 1 column line])) := by
  refine ⟨?_, ?_, ?_, ?_⟩
  · simp [lex, lexLoop]
  · intro n rest column line result hn
    rw [lexLoop.eq_def]
    simp [hn]
  · simp [lex, lexLoop]
  · intro column line result
    rw [lexLoop.eq_def]
    simp
    rw [lexLoop]

/-- C6 witness: the quantified parts instantiated at `'-'` after the star and
at a star ending the input. -/
theorem lex_star_lookahead_witness :
    ('-' : Char) ≠ '*' ∧
    lexLoop (some '*') ('-' :: []) 1 1 [] =
      lexLoop (some '-') [] (1 + 1) 1 ([] ++ [push_tok TokenType.Star 1 1 1]) ∧
    lexLoop (some '*') [] 1 1 [] = Except.ok ([] ++ [push_tok TokenType.Star 1 1 1]) :=
  ⟨by decide, lex_star_lookahead.2.1 '-' [] 1 1 [] (by decide),
    lex_star_lookahead.2.2.2 1 1 []⟩

/- ### Claim C7 -/

/-- C7: keyword recognition is exact and case-sensitive with no partial or
prefix matching: `check_keyword` maps `"if"` to `If`, `"else"` to `Else` and
every other string to `Name` of that exact string; a whole-input alphabetic
run lexes to the single corresponding token, and in particular `"if"`,
`"else"`, `"IF"`, `"iff"`, `"els"` lex to `[If]`, `[Else]`, `[Name "IF"]`,
`[Name "iff"]`, `[Name "els"]` respectively. -/
theorem lex_keyword_exact_match :
    check_keyword "if" = TokenType.If ∧
    check_keyword "else" = TokenType.Else ∧
    (∀ s : String, s ≠ "if" → s ≠ "else" → check_keyword s = TokenType.Name s) ∧
    (∀ (a : Char) (as : List Char) (column line : Nat) (result : List Token),
      is_alphabetic a = true → (∀ x ∈ as, is_alphabetic x = true) →
      lexLoop (some a) as column line result =
        Except.ok (result ++ [push_tok (check_keyword ⟨a :: as⟩)
          (⟨a :: as⟩ : String).utf8ByteSize column line])) ∧
    lex "if" = Except.ok [push_tok TokenType.If 2 1 1] ∧
    lex "else" = Except.ok [push_tok TokenType.Else 4 1 1] ∧
    lex "IF" = Except.ok [push_tok (TokenType.Name "IF") 2 1 1] ∧
    lex "iff" = Except.ok [push_tok (TokenType.Name "iff") 3 1 1] ∧
    lex "els" = Except.ok [push_tok (TokenType.Name "els") 3 1 1] := by
  refine ⟨by simp [check_keyword], by simp [check_keyword], ?_,
    lexLoop_alpha_run_all, ?_, ?_, ?_, ?_, ?_⟩
  · intro s h1 h2
    simp [check_keyword, h1, h2]
  all_goals
    (simp [lex, lexLoop, take_until, take_until_loop, is_alphabetic]; decide)

/-- C7 witness: the quantified parts instantiated at the non-keyword string
`"x"` and the one-character run `'x'`. -/
theorem lex_keyword_exact_match_witness :
    ("x" : String) ≠ "if" ∧ ("x" : String) ≠ "else" ∧
    check_keyword "x" = TokenType.Name "x" ∧
    lexLoop (some 'x') [] 1 1 [] =
      Except.ok ([] ++ [push_tok (check_keyword ⟨'x' :: []⟩)
        (⟨'x' :: []⟩ : String).utf8ByteSize 1 1]) :=
  ⟨by decide, by decide,
    lex_keyword_exact_match.2.2.1 "x" (by decide) (by decide),
    lex_keyword_exact_match.2.2.2.1 'x' [] 1 1 [] (by decide) (by simp)⟩

/- ### Claim C8 -/

/-- C8: each one-character operator input lexes to exactly one token of the
matching kind whose span is exactly that character: `start == end` with both
locations `(1, 1)`. -/
theorem lex_single_operator_tokens :
    lex "+" = Except.ok [⟨⟨1, 1⟩, ⟨1, 1⟩, TokenType.Plus⟩] ∧
    lex "-" = Except.ok [⟨⟨1, 1⟩, ⟨1, 1⟩, TokenType.Minus⟩] ∧
    lex "*" = Except.ok [⟨⟨1, 1⟩, ⟨1, 1⟩, TokenType.Star⟩] ∧
    lex "/" = Except.ok [⟨⟨1, 1⟩, ⟨1, 1⟩, TokenType.Slash⟩] := by
  refine ⟨?_, ?_, ?_, ?_⟩ <;> simp [lex, lexLoop, push_tok, Location.new, is_alphabetic]

/- ### Claim C9 -/

/-- C9: `lex("")` returns `Ok` with an empty token sequence and no error. -/
theorem lex_empty_input : lex "" = Except.ok [] := by
  simp [lex, lexLoop]

/- ### Claim C10 -/

/-- C10: `lex` is pure and deterministic — two invocations on the same input
return identical results.  In this embedding `lex` is a mathematical function
of its input alone (the Rust function reads no ambient state), so equal
inputs give equal outputs. -/
theorem lex_deterministic (s1 s2 : String) (h : s1 = s2) : lex s1 = lex s2 := by
  rw [h]

/-- C10 witness: two invocations on the concrete input `"if+"` agree. -/
theorem lex_deterministic_witness :
    ("if+" : String) = "if+" ∧ lex "if+" = lex "if+" :=
  ⟨rfl, lex_deterministic "if+" "if+" rfl⟩

end OxyPython
